import Mathlib

/-!
Verification development for `streamlit_app.py` (Calm Journal).

Python strings are modelled as `List Char` (`PyStr`); the CSV file as
`Option (List Row)` (`none` = the file does not exist); the temporary files
created by `transcribe_audio` as a pair of booleans recording whether each
still exists when the call returns; the Streamlit session state as a record,
with reachability under the user-driven reruns as an inductive relation.
-/

namespace CalmJournal

abbrev PyStr := List Char

/-- Python's `str.split(',')` (`"".split(',') == ['']`). -/
def splitComma : List Char → List (List Char)
  | [] => [[]]
  | c :: cs =>
    if c = ',' then [] :: splitComma cs
    else
      match splitComma cs with
      | [] => [[c]]
      | t :: ts => (c :: t) :: ts

/-- The whitespace set of Python's `str.strip()` (ASCII part). -/
def pyIsSpace (c : Char) : Bool :=
  c = ' ' || c = '\t' || c = '\n' || c = '\x0d' || c = '\x0b' || c = '\x0c'

/-- Remove trailing `pyIsSpace` characters. -/
def dropTrail (l : List Char) : List Char :=
  ((l.reverse).dropWhile pyIsSpace).reverse

/-- Python's `str.strip()`: remove leading and trailing whitespace. -/
def pyStrip (l : List Char) : List Char :=
  dropTrail (l.dropWhile pyIsSpace)

/-- Python's `p.startswith('#')`. -/
def startsHash : List Char → Bool
  | '#' :: _ => true
  | _ => false

/-- The loop body of `normalize_tags`: `if not p.startswith('#'): p = '#' + p`. -/
def addHash (p : List Char) : List Char :=
  if startsHash p then p else '#' :: p

/-- `', '.join` over the token list. -/
def joinCS : List (List Char) → List Char
  | [] => []
  | [t] => t
  | t :: ts => t ++ ',' :: ' ' :: joinCS ts

/-- `[t.strip() for t in tags_str.split(',') if t.strip()]`. -/
def partsOf (s : PyStr) : List (List Char) :=
  (((splitComma s).map pyStrip).filter (fun p => p ≠ []))

/-- The `normalized` list built by `normalize_tags`. -/
def normalizeList (s : PyStr) : List (List Char) :=
  (partsOf s).map addHash

/-- `normalize_tags` from `streamlit_app.py` (lines 80-89). -/
def normalize_tags (s : PyStr) : PyStr :=
  if s = [] then [] else joinCS (normalizeList s)

/-! ## Audio transcriber (`transcribe_audio`, lines 19-77)

The external world is a parameter: whether `import speech_recognition`
succeeds, whether the pydub conversion of a non-`.wav` input succeeds, and
what the Google recognizer reports.  The function's value is the returned
string together with which of the two temporary files (the input temp file
and, when conversion ran, the derived `.wav` file) still exist on return. -/

/-- Outcome of `recognizer.recognize_google(audio)` for the given audio. -/
inductive RecOutcome where
  | success (text : PyStr)
  | unknownValue
  | requestError
  | otherError (msg : PyStr)
deriving DecidableEq, Repr

/-- Exceptions the recognition block can raise. -/
inductive PyExc where
  | unknownValueError
  | requestErrorExc
  | otherExc (msg : PyStr)
deriving DecidableEq, Repr

/-- The `with sr.AudioFile... recognizer.recognize_google(audio)` step,
raising (`Except.error`) like the Python it embeds. -/
def recordAndRecognize : RecOutcome → Except PyExc PyStr
  | .success t => .ok t
  | .unknownValue => .error .unknownValueError
  | .requestError => .error .requestErrorExc
  | .otherError m => .error (.otherExc m)

/-- The `except` clauses of lines 62-67: every exception is mapped to a
sentinel string; nothing re-raises. -/
def handleRecExc : PyExc → PyStr
  | .unknownValueError => "[Could not understand audio]".data
  | .requestErrorExc =>
      "[Speech recognition service unavailable — network required]".data
  | .otherExc m => "[Transcription error: ".data ++ m ++ "]".data

/-- External environment of one `transcribe_audio` call. -/
structure TranscribeEnv where
  srAvailable : Bool
  conversionOk : Bool
  recognition : RecOutcome
deriving DecidableEq, Repr

/-- Which temporary files exist when `transcribe_audio` returns. -/
structure TempFiles where
  tempInExists : Bool
  wavExists : Bool
deriving DecidableEq, Repr

/-- `transcribe_audio` (lines 19-77).  `suffix` is the lower-cased extension
of the uploaded file (or `".wav"` for WebRTC bytes).  Control flow mirrors
the source: a failed `import speech_recognition` returns before any temp
file is written; the input bytes are then written to `temp_in_path`; a
non-`.wav` suffix triggers the pydub conversion, whose failure `return`s the
sentinel of line 54 before the `try`/`finally` block, so `temp_in_path` is
not removed on that path; the recognition `try` maps each exception to its
sentinel and its `finally` removes `temp_in_path` and, when distinct, the
derived `wav_path`. -/
def transcribe_audio (env : TranscribeEnv) (suffix : PyStr) :
    PyStr × TempFiles :=
  if env.srAvailable = false then
    ("[speech_recognition not available — install it in your environment]".data,
     ⟨false, false⟩)
  else
    -- temp_in written: tempInExists is now true
    if suffix ≠ ".wav".data ∧ env.conversionOk = false then
      -- `except Exception: return ...` of lines 53-54, before any cleanup
      ("[Failed to convert audio — ensure pydub and ffmpeg are installed]".data,
       ⟨true, false⟩)
    else
      -- when `suffix ≠ ".wav"` the conversion succeeded and wrote `wav_path`
      let result :=
        match recordAndRecognize env.recognition with
        | .ok t => t
        | .error e => handleRecExc e
      -- `finally`: both `temp_in_path` and a distinct `wav_path` are removed
      (result, ⟨false, false⟩)

/-! ## Entry store (`initialize_csv`, `save_entry`, `load_entries`) -/

abbrev Row := List PyStr

def csvHeader : Row :=
  ["Timestamp".data, "Mood".data, "Tags".data, "Notes".data]

/-- The CSV file: `none` = missing, `some rows` = its rows in order. -/
abbrev CsvFile := Option (List Row)

/-- `initialize_csv` (lines 12-16): create the file with the header row if
it does not exist. -/
def initialize_csv : CsvFile → CsvFile
  | none => some [csvHeader]
  | some rows => some rows

/-- `save_entry` (lines 92-97): ensure the file exists, then append one row
`[timestamp, mood, tags, notes]`. -/
def save_entry (ts mood tags notes : PyStr) (f : CsvFile) : CsvFile :=
  match initialize_csv f with
  | none => none
  | some rows => some (rows ++ [[ts, mood, tags, notes]])

/-- `load_entries` (lines 100-105): `[]` if the file is missing, else every
row after the header (`reader[1:]`). -/
def load_entries : CsvFile → List Row
  | none => []
  | some rows => rows.drop 1

/-! ## Submit handler (`main`, lines 238-272) -/

/-- Python truthiness of a string. -/
def pyTruthy (s : PyStr) : Bool := s ≠ []

/-- `transcribed_text.startswith('[')`. -/
def startsLB : List Char → Bool
  | '[' :: _ => true
  | _ => false

/-- Lines 250-259: combine typed notes with the transcription result.
A non-empty result starting with `'['` is treated as an error and not
appended; a non-empty genuine result is appended after
`"\n\n[Voice note]: "`, or stands alone when no notes were typed. -/
def combineNotes (notes transcribed : PyStr) : PyStr :=
  if pyTruthy transcribed ∧ startsLB transcribed then notes
  else if pyTruthy transcribed then
    if pyTruthy notes then
      notes ++ "\n\n[Voice note]: ".data ++ transcribed
    else transcribed
  else notes

/-- Observable outcome of one submit (lines 238-272). -/
structure SubmitResult where
  file : CsvFile
  transcriptionWarning : Bool
  validationWarning : Bool
  saved : Bool
deriving DecidableEq, Repr

/-- One pass through `if submitted:` with `transcribed` the value of
`transcribed_text` after the transcription phase (`""` when no audio was
provided) and `ts` the timestamp `save_entry` stamps.  Mirrors: normalize
the tags, combine the notes, warn on a sentinel, reject empty final notes,
otherwise persist `str(mood), tags, final_notes`. -/
def submitStep (f : CsvFile) (mood : Nat) (allTags notes transcribed ts : PyStr) :
    SubmitResult :=
  let tags := normalize_tags allTags
  let tw := pyTruthy transcribed ∧ startsLB transcribed
  let finalNotes := combineNotes notes transcribed
  if finalNotes = [] then
    { file := f, transcriptionWarning := tw, validationWarning := true,
      saved := false }
  else
    { file := save_entry ts (toString mood).data tags finalNotes f,
      transcriptionWarning := tw, validationWarning := false, saved := true }

/-! ## Session state and the voice-recording flow (`main`) -/

/-- The module-level names bound in `streamlit_app.py`: its imports
(lines 1-7) and its `def`s, plus `CSV_FILE`.  `RTCConfiguration` and
`webrtc_streamer` are referenced at lines 179 and 183 but appear nowhere
here, so evaluating them raises `NameError`. -/
def moduleGlobals : List String :=
  ["csv", "os", "tempfile", "time", "datetime", "st", "CSV_FILE",
   "initialize_csv", "transcribe_audio", "normalize_tags", "save_entry",
   "load_entries", "inject_css", "main"]

/-- The body of `if st.button('🎙️ Record Note', ...)` (lines 177-193): its
first statement evaluates the global name `RTCConfiguration`, which raises
`NameError` when unbound, before any assignment runs. -/
def recordButtonHandler : Except String Unit :=
  if "RTCConfiguration" ∈ moduleGlobals then .ok ()
  else .error "NameError: name RTCConfiguration is not defined"

/-- The two session-scoped flags (lines 144-147). -/
structure SessionState where
  voice_recorded : Bool
  recorded_audio_bytes : Option (List Nat)
deriving DecidableEq, Repr

/-- Initial session state (lines 144-147). -/
def sessionInit : SessionState := ⟨false, none⟩

/-- The user interactions that rerun the script. -/
inductive UiAction where
  | recordButton
  | clearRecording
  | submitSaved
  | submitNotSaved
  | otherRerun
deriving DecidableEq, Repr

/-- Effect of one rerun on the session flags.  The record button's handler
raises `NameError` before reaching any assignment, so it leaves the state
unchanged (and indeed no statement in the file assigns `True` to
`voice_recorded`); `Clear voice recording` (lines 199-200) and a successful
save (lines 270-271) reset both flags; everything else touches neither. -/
def sessionStep (s : SessionState) : UiAction → SessionState
  | .recordButton => s
  | .clearRecording => ⟨false, none⟩
  | .submitSaved => ⟨false, none⟩
  | .submitNotSaved => s
  | .otherRerun => s

/-- Session states reachable from the initial state by user actions. -/
inductive ReachableSession : SessionState → Prop where
  | init : ReachableSession sessionInit
  | step : ∀ s a, ReachableSession s → ReachableSession (sessionStep s a)

/-- Lines 241-248: which audio the submit handler transcribes — the
uploaded file if present, else the recorded bytes when
`st.session_state.voice_recorded and st.session_state.recorded_audio_bytes`. -/
def transcriptionSource (s : SessionState) (uploaded : Option (List Nat)) :
    Option (List Nat) :=
  match uploaded with
  | some a => some a
  | none =>
    if s.voice_recorded ∧ s.recorded_audio_bytes.isSome then
      s.recorded_audio_bytes
    else none

/-! ## Lemmas on strip, split and join -/

theorem dropWhile_dropWhile (p : Char → Bool) (l : List Char) :
    (l.dropWhile p).dropWhile p = l.dropWhile p := by
  induction l with
  | nil => rfl
  | cons c cs ih =>
    by_cases h : p c
    · simp [List.dropWhile, h, ih]
    · simp [List.dropWhile, h]

theorem dropWhile_append (p : Char → Bool) (xs ys : List Char) :
    (xs ++ ys).dropWhile p =
      if xs.dropWhile p = [] then ys.dropWhile p else xs.dropWhile p ++ ys := by
  induction xs with
  | nil => simp
  | cons c cs ih =>
    by_cases h : p c
    · simpa [List.dropWhile, h] using ih
    · simp [List.dropWhile, h]

theorem dropTrail_nil : CalmJournal.dropTrail [] = [] := rfl

theorem dropTrail_eq_nil_iff (l : List Char) :
    CalmJournal.dropTrail l = [] ↔ l.reverse.dropWhile CalmJournal.pyIsSpace = [] := by
  unfold CalmJournal.dropTrail
  constructor
  · intro h
    have := congrArg List.reverse h
    simpa using this
  · intro h; simp [h]

theorem dropTrail_cons (c : Char) (l : List Char) :
    CalmJournal.dropTrail (c :: l) =
      if CalmJournal.dropTrail l = [] then
        (if CalmJournal.pyIsSpace c then [] else [c])
      else c :: CalmJournal.dropTrail l := by
  unfold CalmJournal.dropTrail
  have h := dropWhile_append CalmJournal.pyIsSpace l.reverse [c]
  simp only [List.reverse_cons]
  rw [h]
  by_cases h0 : l.reverse.dropWhile CalmJournal.pyIsSpace = []
  · by_cases hc : CalmJournal.pyIsSpace c <;>
      simp [h0, List.dropWhile, hc, dropTrail_eq_nil_iff]
  · simp [h0, dropTrail_eq_nil_iff]

theorem dropTrail_idem (l : List Char) :
    CalmJournal.dropTrail (CalmJournal.dropTrail l) = CalmJournal.dropTrail l := by
  unfold CalmJournal.dropTrail
  simp [dropWhile_dropWhile]

theorem dropWhile_dropTrail (l : List Char)
    (h : l.dropWhile CalmJournal.pyIsSpace = l) :
    (CalmJournal.dropTrail l).dropWhile CalmJournal.pyIsSpace =
      CalmJournal.dropTrail l := by
  cases l with
  | nil => rfl
  | cons c cs =>
    have hc : CalmJournal.pyIsSpace c = false := by
      have := List.dropWhile_eq_self_iff.mp h (by simp)
      simpa using this
    rw [dropTrail_cons]
    by_cases h0 : CalmJournal.dropTrail cs = []
    · simp [h0, hc, List.dropWhile]
    · simp [h0, List.dropWhile, hc]

theorem pyStrip_fixed_dropWhile (l : List Char) :
    (CalmJournal.pyStrip l).dropWhile CalmJournal.pyIsSpace =
      CalmJournal.pyStrip l := by
  unfold CalmJournal.pyStrip
  exact dropWhile_dropTrail _ (dropWhile_dropWhile _ l)

theorem pyStrip_fixed_dropTrail (l : List Char) :
    CalmJournal.dropTrail (CalmJournal.pyStrip l) = CalmJournal.pyStrip l := by
  unfold CalmJournal.pyStrip
  exact dropTrail_idem _

theorem pyStrip_idem (l : List Char) :
    CalmJournal.pyStrip (CalmJournal.pyStrip l) = CalmJournal.pyStrip l := by
  conv_lhs => rw [CalmJournal.pyStrip, pyStrip_fixed_dropWhile]
  exact pyStrip_fixed_dropTrail l

theorem pyStrip_space_cons (l : List Char) :
    CalmJournal.pyStrip (' ' :: l) = CalmJournal.pyStrip l := by
  unfold CalmJournal.pyStrip
  have : CalmJournal.pyIsSpace ' ' = true := rfl
  simp [List.dropWhile, this]

theorem pyStrip_hash_cons (l : List Char)
    (hfix : CalmJournal.pyStrip l = l) (hne : l ≠ []) :
    CalmJournal.pyStrip ('#' :: l) = '#' :: l := by
  have hdw : l.dropWhile CalmJournal.pyIsSpace = l := by
    conv_lhs => rw [← hfix, pyStrip_fixed_dropWhile]
    exact hfix
  have hdt : CalmJournal.dropTrail l = l := by
    conv_lhs => rw [← hfix]
    rw [pyStrip_fixed_dropTrail]
    exact hfix
  have hh : CalmJournal.pyIsSpace '#' = false := rfl
  unfold CalmJournal.pyStrip
  rw [List.dropWhile_cons]
  simp only [hh, Bool.false_eq_true, if_false]
  rw [dropTrail_cons, hdt]
  simp [hne]

theorem mem_of_mem_dropWhile (p : Char → Bool) (c : Char) (l : List Char)
    (h : c ∈ l.dropWhile p) : c ∈ l := by
  induction l with
  | nil => simp at h
  | cons a as ih =>
    by_cases ha : p a
    · simp [List.dropWhile, ha] at h
      exact List.mem_cons_of_mem _ (ih h)
    · simpa [List.dropWhile, ha] using h

theorem mem_of_mem_pyStrip (c : Char) (l : List Char)
    (h : c ∈ CalmJournal.pyStrip l) : c ∈ l := by
  unfold CalmJournal.pyStrip CalmJournal.dropTrail at h
  rw [List.mem_reverse] at h
  have h1 := mem_of_mem_dropWhile _ _ _ h
  rw [List.mem_reverse] at h1
  exact mem_of_mem_dropWhile _ _ _ h1

theorem splitComma_ne_nil (l : List Char) : CalmJournal.splitComma l ≠ [] := by
  induction l with
  | nil => simp [CalmJournal.splitComma]
  | cons c cs ih =>
    by_cases h : c = ','
    · simp [CalmJournal.splitComma, h]
    · simp only [CalmJournal.splitComma, h, if_false]
      rcases hs : CalmJournal.splitComma cs with _ | ⟨t, ts⟩
      · exact absurd hs ih
      · simp

theorem splitComma_no_comma (l : List Char) :
    ∀ p ∈ CalmJournal.splitComma l, ',' ∉ p := by
  induction l with
  | nil => simp [CalmJournal.splitComma]
  | cons c cs ih =>
    by_cases h : c = ','
    · simp only [CalmJournal.splitComma, h, if_true]
      intro p hp
      rcases List.mem_cons.mp hp with h1 | h1
      · simp [h1]
      · exact ih p h1
    · simp only [CalmJournal.splitComma, if_neg h]
      rcases hs : CalmJournal.splitComma cs with _ | ⟨t, ts⟩
      · exact absurd hs (splitComma_ne_nil cs)
      · intro p hp
        rcases List.mem_cons.mp hp with h1 | h1
        · subst h1
          intro hmem
          rcases List.mem_cons.mp hmem with h2 | h2
          · exact h h2.symm
          · exact ih t (by simp [hs]) h2
        · exact ih p (by simp [hs, h1])

theorem splitComma_single (l : List Char) (h : ',' ∉ l) :
    CalmJournal.splitComma l = [l] := by
  induction l with
  | nil => rfl
  | cons c cs ih =>
    have hc : c ≠ ',' := fun hc' => h (by simp [hc'])
    have hcs : ',' ∉ cs := fun h2 => h (List.mem_cons_of_mem _ h2)
    simp only [CalmJournal.splitComma, if_neg hc, ih hcs]

theorem splitComma_head_cons (c : Char) (l : List Char) (h : c ≠ ',')
    (t : List Char) (ts : List (List Char))
    (hs : CalmJournal.splitComma l = t :: ts) :
    CalmJournal.splitComma (c :: l) = (c :: t) :: ts := by
  simp only [CalmJournal.splitComma, if_neg h, hs]

theorem splitComma_append (a r : List Char) (h : ',' ∉ a) :
    CalmJournal.splitComma (a ++ ',' :: r) = a :: CalmJournal.splitComma r := by
  induction a with
  | nil => simp [CalmJournal.splitComma]
  | cons c cs ih =>
    have hc : c ≠ ',' := fun hc' => h (by simp [hc'])
    have hcs : ',' ∉ cs := fun h2 => h (List.mem_cons_of_mem _ h2)
    have := ih hcs
    simp only [List.cons_append]
    exact splitComma_head_cons c _ hc cs (CalmJournal.splitComma r) this

/-- A token as produced by `normalize_tags`: starts with `'#'`, is fixed by
`str.strip()`, and contains no comma. -/
def Clean (t : List Char) : Prop :=
  CalmJournal.startsHash t = true ∧ CalmJournal.pyStrip t = t ∧ ',' ∉ t

theorem clean_ne_nil {t : List Char} (h : Clean t) : t ≠ [] := by
  rcases h with ⟨h1, -, -⟩
  intro he
  subst he
  simp [CalmJournal.startsHash] at h1

theorem startsHash_addHash (p : List Char) :
    CalmJournal.startsHash (CalmJournal.addHash p) = true := by
  unfold CalmJournal.addHash
  by_cases h : CalmJournal.startsHash p = true
  · rw [if_pos h]; exact h
  · rw [if_neg h]; rfl

theorem normalizeList_clean (s : CalmJournal.PyStr) :
    ∀ t ∈ CalmJournal.normalizeList s, Clean t := by
  intro t ht
  unfold CalmJournal.normalizeList at ht
  rcases List.mem_map.mp ht with ⟨p, hp, hpt⟩
  unfold CalmJournal.partsOf at hp
  rcases List.mem_filter.mp hp with ⟨hp1, hp2⟩
  rcases List.mem_map.mp hp1 with ⟨q, hq, hqp⟩
  have hpne : p ≠ [] := by simpa using hp2
  have hpfix : CalmJournal.pyStrip p = p := by
    rw [← hqp]; exact pyStrip_idem q
  have hqc : ',' ∉ q := splitComma_no_comma s q hq
  have hpc : ',' ∉ p := fun hmem => hqc (mem_of_mem_pyStrip _ _ (hqp ▸ hmem))
  subst hpt
  refine ⟨startsHash_addHash p, ?_, ?_⟩
  · unfold CalmJournal.addHash
    by_cases hsh : CalmJournal.startsHash p = true
    · simpa [hsh] using hpfix
    · simp only [hsh, if_false, Bool.false_eq_true]
      exact pyStrip_hash_cons p hpfix hpne
  · unfold CalmJournal.addHash
    by_cases hsh : CalmJournal.startsHash p = true
    · simpa [hsh] using hpc
    · simp only [hsh, if_false, Bool.false_eq_true]
      intro hmem
      rcases List.mem_cons.mp hmem with h1 | h1
      · exact absurd h1.symm (by decide)
      · exact hpc h1

theorem joinCS_cons_cons (t u : List Char) (ts : List (List Char)) :
    CalmJournal.joinCS (t :: u :: ts) =
      t ++ ',' :: ' ' :: CalmJournal.joinCS (u :: ts) := rfl

theorem splitComma_joinCS (t : List Char) (ts : List (List Char))
    (h : ∀ x ∈ t :: ts, ',' ∉ x) :
    CalmJournal.splitComma (CalmJournal.joinCS (t :: ts)) =
      t :: ts.map (fun x => ' ' :: x) := by
  induction ts generalizing t with
  | nil =>
    simp only [CalmJournal.joinCS, List.map_nil]
    exact splitComma_single t (h t (by simp))
  | cons u us ih =>
    rw [joinCS_cons_cons, splitComma_append t _ (h t (by simp))]
    have hrec := ih u (fun x hx => h x (by
      rcases List.mem_cons.mp hx with h1 | h1
      · simp [h1]
      · simp [h1]))
    rcases hj : CalmJournal.splitComma (CalmJournal.joinCS (u :: us)) with
      _ | ⟨v, vs⟩
    · exact absurd hj (splitComma_ne_nil _)
    · rw [hj] at hrec
      have hv : v = u := by
        injection hrec with h1 h2
      have hvs : vs = us.map (fun x => ' ' :: x) := by
        injection hrec with h1 h2
      rw [splitComma_head_cons ' ' _ (by decide) v vs hj, hv, hvs]
      simp

theorem partsOf_joinCS (T : List (List Char)) (hT : ∀ t ∈ T, Clean t) :
    CalmJournal.partsOf (CalmJournal.joinCS T) = T := by
  cases T with
  | nil =>
    rfl
  | cons t ts =>
    unfold CalmJournal.partsOf
    rw [splitComma_joinCS t ts (fun x hx => (hT x hx).2.2)]
    have hmap : (t :: ts.map (fun x => ' ' :: x)).map CalmJournal.pyStrip =
        t :: ts := by
      simp only [List.map_cons, List.map_map]
      rw [(hT t (by simp)).2.1]
      congr 1
      have hcg : ∀ x ∈ ts, (CalmJournal.pyStrip ∘ fun x => ' ' :: x) x = id x := by
        intro x hx
        simp only [Function.comp_apply, id]
        rw [pyStrip_space_cons]
        exact (hT x (by simp [hx])).2.1
      rw [List.map_congr_left hcg, List.map_id]
    rw [hmap]
    rw [List.filter_eq_self.mpr]
    intro a ha
    have : a ≠ [] := clean_ne_nil (hT a ha)
    simpa using this

theorem joinCS_ne_nil (t : List Char) (ts : List (List Char)) (h : t ≠ []) :
    CalmJournal.joinCS (t :: ts) ≠ [] := by
  cases ts with
  | nil => simpa [CalmJournal.joinCS] using h
  | cons u us =>
    rw [joinCS_cons_cons]
    simp

theorem addHash_of_startsHash (t : List Char)
    (h : CalmJournal.startsHash t = true) : CalmJournal.addHash t = t := by
  simp [CalmJournal.addHash, h]

theorem normalize_tags_of_joinCS (T : List (List Char)) (hT : ∀ t ∈ T, Clean t)
    (hne : T ≠ []) :
    CalmJournal.normalize_tags (CalmJournal.joinCS T) = CalmJournal.joinCS T := by
  rcases T with _ | ⟨t, ts⟩
  · exact absurd rfl hne
  have hj : CalmJournal.joinCS (t :: ts) ≠ [] :=
    joinCS_ne_nil t ts (clean_ne_nil (hT t (by simp)))
  unfold CalmJournal.normalize_tags
  rw [if_neg hj]
  unfold CalmJournal.normalizeList
  rw [partsOf_joinCS _ hT]
  congr 1
  have hcg : ∀ x ∈ t :: ts, CalmJournal.addHash x = id x := by
    intro x hx
    simp only [id]
    exact addHash_of_startsHash x (hT x hx).1
  rw [List.map_congr_left hcg, List.map_id]

/-! ## Helper lemmas for the transcriber, the store and the session -/

theorem startsLB_handleRecExc (e : CalmJournal.PyExc) :
    CalmJournal.startsLB (CalmJournal.handleRecExc e) = true := by
  cases e <;> rfl

/-- On a store state the program can produce (the file is missing or has at
least its header row), appending with `save_entry` extends the loaded rows
by exactly the new row. -/
theorem load_save_append (ts mood tags notes : CalmJournal.PyStr)
    (f : CalmJournal.CsvFile) (h : f ≠ some []) :
    CalmJournal.load_entries (CalmJournal.save_entry ts mood tags notes f) =
      CalmJournal.load_entries f ++ [[ts, mood, tags, notes]] := by
  rcases f with _ | rows
  · rfl
  · rcases rows with _ | ⟨r, rs⟩
    · exact absurd rfl h
    · simp [CalmJournal.save_entry, CalmJournal.initialize_csv,
        CalmJournal.load_entries]

theorem reachable_voice_recorded_false (s : CalmJournal.SessionState)
    (h : CalmJournal.ReachableSession s) : s.voice_recorded = false := by
  induction h with
  | init => rfl
  | step s a _ ih => cases a <;> first | exact ih | rfl

/-! ## Claims -/

/-- C1, counterexample: the claim that every temporary file `transcribe_audio`
creates is gone on every exit path is false.  On the audio-conversion
failure path (speech_recognition importable, non-`.wav` suffix, pydub
conversion fails) the line-54 `return` runs before the `try`/`finally`
cleanup, so the input temp file still exists when the call returns. -/
theorem C1_cleanup_counterexample :
    (CalmJournal.transcribe_audio
        ⟨true, false, CalmJournal.RecOutcome.unknownValue⟩
        ".mp3".data).2.tempInExists = true ∧
    (CalmJournal.transcribe_audio
        ⟨true, false, CalmJournal.RecOutcome.unknownValue⟩
        ".mp3".data).1 =
      "[Failed to convert audio — ensure pydub and ffmpeg are installed]".data := by
  exact ⟨rfl, rfl⟩

/-- C1, amended: the derived `.wav` file never survives the call, and the
input temp file survives exactly on the conversion-failure path (recognition
library importable, non-`.wav` input, conversion failed); on every other
exit path — success, handled recognition failures, unexpected exception in
the recognition block, and the missing-library early return — no temporary
file exists when the call returns. -/
theorem C1_amended_cleanup (env : CalmJournal.TranscribeEnv)
    (suffix : CalmJournal.PyStr) :
    (CalmJournal.transcribe_audio env suffix).2.wavExists = false ∧
    ((CalmJournal.transcribe_audio env suffix).2.tempInExists = true ↔
      env.srAvailable = true ∧ suffix ≠ ".wav".data ∧
        env.conversionOk = false) := by
  rcases env with ⟨sa, co, rec⟩
  unfold CalmJournal.transcribe_audio
  rcases sa with _ | _ <;> rcases co with _ | _ <;>
    by_cases hs : suffix = ".wav".data <;>
      simp [hs]

/-- C2: `transcribe_audio` never raises: its value is either the recognizer's
transcript (reached only when the recognition step succeeded) or a sentinel
string whose first character is `'['`; every failure mode — missing library,
conversion failure, no speech understood, service unavailable, any other
exception — lands in the sentinel channel. -/
theorem C2_total_sentinel_channel (env : CalmJournal.TranscribeEnv)
    (suffix : CalmJournal.PyStr) :
    (∃ t, env.recognition = CalmJournal.RecOutcome.success t ∧
        (CalmJournal.transcribe_audio env suffix).1 = t) ∨
    CalmJournal.startsLB (CalmJournal.transcribe_audio env suffix).1 = true := by
  rcases env with ⟨sa, co, rec⟩
  rcases sa with _ | _
  · right; rfl
  · by_cases hcv : suffix ≠ ".wav".data ∧ co = false
    · right
      unfold CalmJournal.transcribe_audio
      rw [if_neg (by simp), if_pos hcv]
      rfl
    · cases rec with
      | success t =>
        left
        refine ⟨t, rfl, ?_⟩
        unfold CalmJournal.transcribe_audio
        rw [if_neg (by simp), if_neg hcv]
        rfl
      | unknownValue =>
        right
        unfold CalmJournal.transcribe_audio
        rw [if_neg (by simp), if_neg hcv]
        rfl
      | requestError =>
        right
        unfold CalmJournal.transcribe_audio
        rw [if_neg (by simp), if_neg hcv]
        rfl
      | otherError m =>
        right
        unfold CalmJournal.transcribe_audio
        rw [if_neg (by simp), if_neg hcv]
        exact startsLB_handleRecExc (.otherExc m)

/-- C3, counterexample: on a conversion failure the returned sentinel is not
the claimed `"[Failed to convert audio — ensure dependencies are
installed]"`; line 54 says `"ensure pydub and ffmpeg are installed"`. -/
theorem C3_sentinel_counterexample :
    (CalmJournal.transcribe_audio
        ⟨true, false, CalmJournal.RecOutcome.requestError⟩
        ".ogg".data).1 ≠
      "[Failed to convert audio — ensure dependencies are installed]".data ∧
    (CalmJournal.transcribe_audio
        ⟨true, false, CalmJournal.RecOutcome.requestError⟩
        ".ogg".data).1 =
      "[Failed to convert audio — ensure pydub and ffmpeg are installed]".data := by
  exact ⟨by decide, rfl⟩

/-- C3, amended: when the recognition library imports, the input is not
`.wav`, and the conversion fails, `transcribe_audio` returns exactly
`"[Failed to convert audio — ensure pydub and ffmpeg are installed]"`. -/
theorem C3_amended_conversion_sentinel (env : CalmJournal.TranscribeEnv)
    (suffix : CalmJournal.PyStr) (h1 : env.srAvailable = true)
    (h2 : suffix ≠ ".wav".data) (h3 : env.conversionOk = false) :
    (CalmJournal.transcribe_audio env suffix).1 =
      "[Failed to convert audio — ensure pydub and ffmpeg are installed]".data := by
  unfold CalmJournal.transcribe_audio
  rw [if_neg (by simp [h1]), if_pos ⟨h2, h3⟩]

/-- C3, witness for the amended theorem at a concrete call. -/
theorem C3_amended_witness :
    (⟨true, false, CalmJournal.RecOutcome.success "hi".data⟩ :
        CalmJournal.TranscribeEnv).srAvailable = true ∧
    ".m4a".data ≠ ".wav".data ∧
    (CalmJournal.transcribe_audio
        ⟨true, false, CalmJournal.RecOutcome.success "hi".data⟩
        ".m4a".data).1 =
      "[Failed to convert audio — ensure pydub and ffmpeg are installed]".data :=
  ⟨rfl, by decide,
   C3_amended_conversion_sentinel _ _ rfl (by decide) rfl⟩

/-- C4: on submit with a non-empty transcription result, a result starting
with `'['` is surfaced as a transcription warning and the notes stay the
typed notes alone; otherwise the final notes are
`"<typed>\n\n[Voice note]: <transcript>"` (or the transcript alone when no
notes were typed), the entry is persisted, and the last loaded row carries
those combined notes. -/
theorem C4_submit_combination (f : CalmJournal.CsvFile) (mood : Nat)
    (allTags notes transcribed ts : CalmJournal.PyStr)
    (h : transcribed ≠ []) :
    (CalmJournal.startsLB transcribed = true →
      (CalmJournal.submitStep f mood allTags notes transcribed
          ts).transcriptionWarning = true ∧
      CalmJournal.combineNotes notes transcribed = notes) ∧
    (CalmJournal.startsLB transcribed = false →
      CalmJournal.combineNotes notes transcribed =
        (if notes ≠ [] then
          notes ++ "\n\n[Voice note]: ".data ++ transcribed
         else transcribed) ∧
      (CalmJournal.submitStep f mood allTags notes transcribed ts).saved =
        true ∧
      (f ≠ some [] →
        (CalmJournal.load_entries
            (CalmJournal.submitStep f mood allTags notes transcribed
              ts).file).getLast? =
          some [ts, (toString mood).data, CalmJournal.normalize_tags allTags,
            CalmJournal.combineNotes notes transcribed])) := by
  constructor
  · intro hlb
    have htw : CalmJournal.pyTruthy transcribed ∧
        CalmJournal.startsLB transcribed := ⟨by simpa [CalmJournal.pyTruthy], hlb⟩
    constructor
    · unfold CalmJournal.submitStep
      by_cases hfin : CalmJournal.combineNotes notes transcribed = [] <;>
        simp [hfin, htw]
    · unfold CalmJournal.combineNotes
      rw [if_pos htw]
  · intro hlb
    have hnotlb : ¬(CalmJournal.pyTruthy transcribed ∧
        CalmJournal.startsLB transcribed) := by simp [hlb]
    have htr : CalmJournal.pyTruthy transcribed = true := by
      simpa [CalmJournal.pyTruthy]
    have hcomb : CalmJournal.combineNotes notes transcribed =
        (if notes ≠ [] then
          notes ++ "\n\n[Voice note]: ".data ++ transcribed
         else transcribed) := by
      unfold CalmJournal.combineNotes
      rw [if_neg hnotlb, if_pos htr]
      by_cases hn : notes = []
      · simp [hn, CalmJournal.pyTruthy]
      · simp [hn, CalmJournal.pyTruthy]
    have hfin : CalmJournal.combineNotes notes transcribed ≠ [] := by
      rw [hcomb]
      by_cases hn : notes = []
      · simpa [hn]
      · simp [hn]
    refine ⟨hcomb, ?_, ?_⟩
    · unfold CalmJournal.submitStep
      simp [hfin]
    · intro hf
      have hfile : (CalmJournal.submitStep f mood allTags notes transcribed
          ts).file =
          CalmJournal.save_entry ts (toString mood).data
            (CalmJournal.normalize_tags allTags)
            (CalmJournal.combineNotes notes transcribed) f := by
        unfold CalmJournal.submitStep
        simp [hfin]
      rw [hfile, load_save_append _ _ _ _ _ hf]
      simp

/-- C4, witness at a concrete successful transcription and at a concrete
sentinel. -/
theorem C4_submit_combination_witness :
    ("hello world".data ≠ ([] : List Char)) ∧
    CalmJournal.combineNotes "typed".data "hello world".data =
      "typed\n\n[Voice note]: hello world".data ∧
    ("[Could not understand audio]".data ≠ ([] : List Char)) ∧
    CalmJournal.combineNotes "typed".data
      "[Could not understand audio]".data = "typed".data := by
  refine ⟨by decide, ?_, by decide, ?_⟩
  · have h := (C4_submit_combination none 3 "".data "typed".data
      "hello world".data "t".data (by decide)).2 (by decide)
    rw [h.1]
    decide
  · exact ((C4_submit_combination none 3 "".data "typed".data
      "[Could not understand audio]".data "t".data (by decide)).1
        (by decide)).2

/-- C5: when the final combined notes are empty — in particular when the
only audio input produced a sentinel transcription error and the typed
notes are empty — the submit shows the validation warning and persists
nothing: the file is unchanged and no save happens. -/
theorem C5_empty_notes_rejected (f : CalmJournal.CsvFile) (mood : Nat)
    (allTags notes transcribed ts : CalmJournal.PyStr)
    (h : CalmJournal.combineNotes notes transcribed = []) :
    (CalmJournal.submitStep f mood allTags notes transcribed
        ts).validationWarning = true ∧
    (CalmJournal.submitStep f mood allTags notes transcribed ts).file = f ∧
    (CalmJournal.submitStep f mood allTags notes transcribed ts).saved =
      false := by
  unfold CalmJournal.submitStep
  simp [h]

/-- C5, witness: empty typed notes plus a sentinel transcription result. -/
theorem C5_empty_notes_rejected_witness :
    CalmJournal.combineNotes "".data "[Could not understand audio]".data =
      [] ∧
    ((CalmJournal.submitStep (some [CalmJournal.csvHeader]) 2 "tag".data
        "".data "[Could not understand audio]".data
        "t".data).validationWarning = true ∧
      (CalmJournal.submitStep (some [CalmJournal.csvHeader]) 2 "tag".data
        "".data "[Could not understand audio]".data "t".data).file =
        some [CalmJournal.csvHeader] ∧
      (CalmJournal.submitStep (some [CalmJournal.csvHeader]) 2 "tag".data
        "".data "[Could not understand audio]".data "t".data).saved =
        false) :=
  ⟨by decide,
   C5_empty_notes_rejected (some [CalmJournal.csvHeader]) 2 "tag".data
     "".data "[Could not understand audio]".data "t".data (by decide)⟩

/-- C6: on any store state the program can produce (the file is missing or
carries at least its header row, which every `save_entry` guarantees via
`initialize_csv`), `save_entry` followed by `load_entries` yields a sequence
whose last element is exactly the appended entry's four fields and whose
length is exactly one more than `load_entries` returned before. -/
theorem C6_append_then_load (f : CalmJournal.CsvFile)
    (ts mood tags notes : CalmJournal.PyStr) (h : f ≠ some []) :
    (CalmJournal.load_entries
        (CalmJournal.save_entry ts mood tags notes f)).getLast? =
      some [ts, mood, tags, notes] ∧
    (CalmJournal.load_entries
        (CalmJournal.save_entry ts mood tags notes f)).length =
      (CalmJournal.load_entries f).length + 1 := by
  rw [load_save_append ts mood tags notes f h]
  simp

/-- C6, witness: appending to a missing file. -/
theorem C6_append_then_load_witness :
    ((none : CalmJournal.CsvFile) ≠ some []) ∧
    ((CalmJournal.load_entries
        (CalmJournal.save_entry "2024-01-01 08:00:00".data "4".data
          "#rest".data "slept well".data none)).getLast? =
      some ["2024-01-01 08:00:00".data, "4".data, "#rest".data,
        "slept well".data] ∧
     (CalmJournal.load_entries
        (CalmJournal.save_entry "2024-01-01 08:00:00".data "4".data
          "#rest".data "slept well".data none)).length =
      (CalmJournal.load_entries none).length + 1) :=
  ⟨by simp,
   C6_append_then_load none "2024-01-01 08:00:00".data "4".data
     "#rest".data "slept well".data (by simp)⟩

/-- C7: `normalize_tags` on the empty string is the empty string,
`normalize_tags "a, ,b" = "#a, #b"`, every token `normalize_tags` builds
starts with `'#'`, and for every input every non-empty stripped token of the
output string starts with `'#'`. -/
theorem C7_normalize_tags_contract :
    CalmJournal.normalize_tags "".data = "".data ∧
    CalmJournal.normalize_tags "a, ,b".data = "#a, #b".data ∧
    (∀ s t, t ∈ CalmJournal.normalizeList s →
      CalmJournal.startsHash t = true) ∧
    (∀ s t, t ∈ CalmJournal.partsOf (CalmJournal.normalize_tags s) →
      CalmJournal.startsHash t = true) := by
  refine ⟨rfl, by decide, ?_, ?_⟩
  · exact fun s t ht => (normalizeList_clean s t ht).1
  · intro s t ht
    by_cases hs : s = []
    · subst hs
      have hnil : CalmJournal.normalize_tags ([] : CalmJournal.PyStr) = [] :=
        rfl
      rw [hnil] at ht
      have : CalmJournal.partsOf [] = [] := rfl
      rw [this] at ht
      simp at ht
    · have h1 : CalmJournal.normalize_tags s =
          CalmJournal.joinCS (CalmJournal.normalizeList s) := by
        unfold CalmJournal.normalize_tags
        rw [if_neg hs]
      rw [h1] at ht
      rcases hN : CalmJournal.normalizeList s with _ | ⟨u, us⟩
      · rw [hN] at ht
        have : CalmJournal.partsOf (CalmJournal.joinCS []) = [] := rfl
        rw [this] at ht
        simp at ht
      · rw [hN] at ht
        rw [partsOf_joinCS (u :: us)
          (fun x hx => normalizeList_clean s x (by rw [hN]; exact hx))] at ht
        exact (normalizeList_clean s t (by rw [hN]; exact ht)).1

/-- C7, witness: the universal marker property applied at a concrete token
of a concrete input. -/
theorem C7_normalize_tags_contract_witness :
    ("#a".data ∈ CalmJournal.normalizeList "a".data) ∧
    CalmJournal.startsHash "#a".data = true :=
  ⟨by decide,
   C7_normalize_tags_contract.2.2.1 "a".data "#a".data (by decide)⟩

/-- C8: `normalize_tags` is idempotent on every string, in particular on
already-normalized ones. -/
theorem C8_normalize_tags_idem (s : CalmJournal.PyStr) :
    CalmJournal.normalize_tags (CalmJournal.normalize_tags s) =
      CalmJournal.normalize_tags s := by
  by_cases hs : s = []
  · subst hs; rfl
  · have h1 : CalmJournal.normalize_tags s =
        CalmJournal.joinCS (CalmJournal.normalizeList s) := by
      unfold CalmJournal.normalize_tags
      rw [if_neg hs]
    rcases hN : CalmJournal.normalizeList s with _ | ⟨t, ts⟩
    · rw [h1, hN]
      rfl
    · rw [h1, hN]
      exact normalize_tags_of_joinCS (t :: ts)
        (fun x hx => normalizeList_clean s x (by rw [hN]; exact hx))
        (by simp)

/-- C9: the live voice-recording path can never produce a transcription.
The record button's handler evaluates the unbound global
`RTCConfiguration` and so raises `NameError`; no rerun ever moves
`voice_recorded` from `False` to `True`; every reachable session state has
`voice_recorded = False`; hence the submit handler's audio source is always
exactly the uploaded file and the `recorded_audio_bytes` branch never
fires. -/
theorem C9_recorded_branch_unreachable :
    ("RTCConfiguration" ∉ CalmJournal.moduleGlobals ∧
      "webrtc_streamer" ∉ CalmJournal.moduleGlobals ∧
      CalmJournal.recordButtonHandler =
        Except.error "NameError: name RTCConfiguration is not defined") ∧
    (∀ s a, s.voice_recorded = false →
      (CalmJournal.sessionStep s a).voice_recorded = false) ∧
    (∀ s, CalmJournal.ReachableSession s → s.voice_recorded = false) ∧
    (∀ s u, CalmJournal.ReachableSession s →
      CalmJournal.transcriptionSource s u = u) := by
  refine ⟨⟨by decide, by decide, rfl⟩, ?_, reachable_voice_recorded_false, ?_⟩
  · intro s a h
    cases a <;> first | exact h | rfl
  · intro s u h
    have hv : s.voice_recorded = false := reachable_voice_recorded_false s h
    rcases u with _ | a
    · unfold CalmJournal.transcriptionSource
      simp [hv]
    · rfl

/-- C9, witness at the initial session state. -/
theorem C9_recorded_branch_unreachable_witness :
    CalmJournal.ReachableSession CalmJournal.sessionInit ∧
    CalmJournal.sessionInit.voice_recorded = false ∧
    CalmJournal.transcriptionSource CalmJournal.sessionInit none = none :=
  ⟨CalmJournal.ReachableSession.init,
   C9_recorded_branch_unreachable.2.2.1 CalmJournal.sessionInit
     CalmJournal.ReachableSession.init,
   C9_recorded_branch_unreachable.2.2.2 CalmJournal.sessionInit none
     CalmJournal.ReachableSession.init⟩

/-- C10: the success and error channels overlap.  When the recognition
service genuinely succeeds with the transcript `"[see you at noon]"`,
`transcribe_audio` returns it verbatim, yet the submit handler's
`startswith('[')` test classifies it as a transcription error: the warning
fires and the saved row's notes are the typed notes alone, without the
transcript. -/
theorem C10_channel_overlap :
    (CalmJournal.transcribe_audio
        ⟨true, true, CalmJournal.RecOutcome.success "[see you at noon]".data⟩
        ".wav".data).1 = "[see you at noon]".data ∧
    (CalmJournal.submitStep none 3 "".data "typed note".data
        "[see you at noon]".data
        "2024-01-01 09:00:00".data).transcriptionWarning = true ∧
    CalmJournal.load_entries
        (CalmJournal.submitStep none 3 "".data "typed note".data
          "[see you at noon]".data "2024-01-01 09:00:00".data).file =
      [["2024-01-01 09:00:00".data, "3".data, "".data,
        "typed note".data]] := by
  refine ⟨rfl, by decide, by decide⟩

end CalmJournal
